import Mathlib

/-!
Verification development for the emotion-analytics backend
(`app/main.py`, `app/models.py`, `app/schemas.py`, `app/db.py`).

Modelling choices:
* Python `float` time values are embedded as exact rationals `ℚ`; the claims
  under study concern comparison, equality-to-zero and summation logic, not
  rounding.
* `datetime` values are embedded as an abstract clock type `Nat`; the external
  library functions `datetime.fromisoformat` and `datetime.isoformat` are
  passed in as function parameters (they are stdlib collaborators, not code of
  this repository), while the `.replace("Z", "+00:00")` preprocessing and the
  `+ "Z"` rendering, which are code of `main.py`, are embedded literally.
* The SQL store is embedded as a list of `PersonEmotion` rows in rowid
  (insertion) order; `session.exec(select...).first()` is `List.find?`, an
  UPDATE mutates the first matching row in place, an INSERT appends.  Because
  SQLModel sessions autoflush before each `exec`, a row added earlier in the
  same batch is visible to later lookups of the same batch, which the list
  model reproduces directly.
* `base64.b64decode` (which can raise) is a parameter `String → Option (List Nat)`.
-/

namespace EmotionBackend

/-- Row of the `person_emotions` table (`app/models.py`, class `PersonEmotion`).
The surrogate `id` column is dropped: rows are identified by list position
(rowid order) and by the `(device_id, person_id)` identity. -/
structure PersonEmotion where
  device_id : String
  person_id : String
  time_happy : ℚ
  time_sad : ℚ
  time_angry : ℚ
  last_seen : Nat
deriving DecidableEq, Repr

/-- The table contents in rowid order. -/
abbrev Store := List PersonEmotion

/-- Input schema `PersonCumulativeIn` (`app/schemas.py`): `cumulative` is a
JSON object, embedded as an association list with string keys. -/
structure PersonCumulativeIn where
  person_id : String
  cumulative : List (String × ℚ)
deriving DecidableEq, Repr

/-- Input schema `EmotionsBatchIn` (`app/schemas.py`). -/
structure EmotionsBatchIn where
  device_id : String
  timestamp : String
  people : List PersonCumulativeIn
deriving DecidableEq, Repr

/-- First-match lookup in an association list: the semantics of reading a
Python `dict` key (dict keys are unique, so first match is the match). -/
def dictGet {α : Type} (m : List (String × α)) (k : String) : Option α :=
  match m with
  | [] => none
  | (k', v) :: rest => if k' = k then some v else dictGet rest k

/-- `cumulative.get(key, 0.0)` (`main.py` lines 172-174). -/
def cumGet (cumulative : List (String × ℚ)) (key : String) : ℚ :=
  (dictGet cumulative key).getD 0

/-- The WHERE clause of the upsert lookup (`main.py` lines 177-180):
`device_id == d AND person_id == p`. -/
def matchesKey (d p : String) (r : PersonEmotion) : Bool :=
  decide (r.device_id = d ∧ r.person_id = p)

/-- Mutate the first row satisfying `q` in place (the effect of assigning to
the ORM object returned by `.first()` and committing). -/
def updateFirst (f : PersonEmotion → PersonEmotion) (q : PersonEmotion → Bool) :
    Store → Store
  | [] => []
  | r :: rs => if q r then f r :: rs else r :: updateFirst f q rs

/-- One iteration of the upsert loop of `ingest_emotions_batch`
(`main.py` lines 167-204): extract the three times with default `0.0`,
look the identity up, update the existing row or insert a new one. -/
def applyPerson (device_id : String) (t : Nat) (store : Store)
    (person_data : PersonCumulativeIn) : Store :=
  let time_happy := cumGet person_data.cumulative "happy"
  let time_sad := cumGet person_data.cumulative "sad"
  let time_angry := cumGet person_data.cumulative "angry"
  match store.find? (matchesKey device_id person_data.person_id) with
  | some _ =>
      updateFirst
        (fun r => { r with time_happy := time_happy, time_sad := time_sad,
                           time_angry := time_angry, last_seen := t })
        (matchesKey device_id person_data.person_id) store
  | none =>
      store ++ [⟨device_id, person_data.person_id,
                 time_happy, time_sad, time_angry, t⟩]

/-- Timestamp resolution of `ingest_emotions_batch` (`main.py` lines 158-163):
`datetime.fromisoformat(batch.timestamp.replace("Z", "+00:00"))`, falling back
to `datetime.utcnow()` when parsing raises.  `parseIso` stands for the stdlib
`fromisoformat` (`none` models the raise), `now` for `utcnow()`. -/
def resolveTimestamp (parseIso : String → Option Nat) (now : Nat)
    (ts : String) : Nat :=
  match parseIso (ts.replace "Z" "+00:00") with
  | some t => t
  | none => now

/-- The upsert loop of `ingest_emotions_batch` over all people of a batch,
before the final commit. -/
def applyBatchPending (device_id : String) (t : Nat) (store : Store)
    (people : List PersonCumulativeIn) : Store :=
  people.foldl (applyPerson device_id t) store

/-- `ingest_emotions_batch` (`main.py` lines 141-207) restricted to its
store effect and response: one resolved timestamp for the whole batch, the
upsert loop, `updated_count` incremented once per person entry. -/
def applyBatch (parseIso : String → Option Nat) (now : Nat) (store : Store)
    (batch : EmotionsBatchIn) : Store × Nat :=
  let t := resolveTimestamp parseIso now batch.timestamp
  (applyBatchPending batch.device_id t store batch.people, batch.people.length)

/-- `ingest_emotions_batch` with its transaction boundary made explicit: the
loop only stages changes in the session; the single `session.commit()` at
line 205 (outside the loop) either persists the whole staged store or raises,
in which case the durable store is unchanged.  `commit_succeeds` models
whether that one commit call raises a storage error.  Returns the HTTP-level
outcome and the durable store after the call. -/
def ingest_emotions_batch (parseIso : String → Option Nat)
    (commit_succeeds : Bool) (now : Nat) (store : Store)
    (batch : EmotionsBatchIn) : Except String Nat × Store :=
  let res := applyBatch parseIso now store batch
  if commit_succeeds then (Except.ok res.2, res.1) else (Except.error "StorageError", store)

/-- A sequence of ingested batches applied to the initially empty table, each
with its own wall-clock `now` for the fallback. -/
def applyBatches (parseIso : String → Option Nat)
    (bs : List (EmotionsBatchIn × Nat)) : Store :=
  bs.foldl (fun st bn => (applyBatch parseIso bn.2 st bn.1).1) []

/-- Output schema `EmotionTotalsOut` (`app/schemas.py`). -/
structure EmotionTotalsOut where
  happy : ℚ
  sad : ℚ
  angry : ℚ
  neutral : ℚ
deriving DecidableEq, Repr

/-- Output schema `PersonStateOut` (`app/schemas.py`): `last_seen` is the
already-rendered timestamp string. -/
structure PersonStateOut where
  person_id : String
  current_emotion : String
  time_happy : ℚ
  time_sad : ℚ
  time_angry : ℚ
  last_seen : String
deriving DecidableEq, Repr

/-- Output schema `DashboardSummaryOut` (`app/schemas.py`). -/
structure DashboardSummaryOut where
  device_id : String
  device_name : String
  updated_at : String
  emotion_totals : EmotionTotalsOut
  current_people : List PersonStateOut
deriving DecidableEq, Repr

/-- `max(emotion_times, key=emotion_times.get)` at `main.py` line 254, with
`emotion_times = {"happy": h, "sad": s, "angry": a}`.  Python `max` scans the
dict keys in insertion order `happy, sad, angry` and replaces the current
best only on a strictly greater value, so the first maximum wins. -/
def pyMaxEmotion (h s a : ℚ) : String :=
  let best1 : String × ℚ := ("happy", h)
  let best2 : String × ℚ := if s > best1.2 then ("sad", s) else best1
  let best3 : String × ℚ := if a > best2.2 then ("angry", a) else best2
  best3.1

/-- The per-record dominant-emotion block of `get_dashboard_summary`
(`main.py` lines 248-262): `max` over the three times, then the all-zero
override to `"neutral"`. -/
def currentEmotionFor (h s a : ℚ) : String :=
  let current_emotion := pyMaxEmotion h s a
  if h = 0 ∧ s = 0 ∧ a = 0 then "neutral" else current_emotion

/-- The `PersonStateOut` built for one row of the summary loop
(`main.py` lines 264-273); `isoformat` stands for `datetime.isoformat`. -/
def personStateOf (isoformat : Nat → String) (record : PersonEmotion) :
    PersonStateOut :=
  { person_id := record.person_id
    current_emotion :=
      currentEmotionFor record.time_happy record.time_sad record.time_angry
    time_happy := record.time_happy
    time_sad := record.time_sad
    time_angry := record.time_angry
    last_seen := isoformat record.last_seen ++ "Z" }

/-- `get_dashboard_summary` (`main.py` lines 211-292): filter the table by
`device_id`, one pass accumulating the three totals and building
`current_people`, then assemble the summary.  `now` is the `utcnow()` used
for `updated_at`. -/
def get_dashboard_summary (isoformat : Nat → String) (now : Nat)
    (store : Store) (device_id : String) : DashboardSummaryOut :=
  let person_records := store.filter (fun r => r.device_id == device_id)
  let res := person_records.foldl
    (fun (acc : ℚ × ℚ × ℚ × List PersonStateOut) record =>
      (acc.1 + record.time_happy, acc.2.1 + record.time_sad,
       acc.2.2.1 + record.time_angry,
       acc.2.2.2 ++ [personStateOf isoformat record]))
    (0, 0, 0, [])
  { device_id := device_id
    device_name := "Entrance Camera"
    updated_at := isoformat now ++ "Z"
    emotion_totals := ⟨res.1, res.2.1, res.2.2.1, 0⟩
    current_people := res.2.2.2 }

/-- One `LATEST_FRAMES` slot (`main.py` lines 52-57): raw frame bytes and an
upload timestamp.  Bytes are modelled as lists of byte values. -/
structure FrameData where
  frame : List Nat
  timestamp : Nat
deriving DecidableEq, Repr

/-- The `LATEST_FRAMES` dict: one slot per `device_id`. -/
abbrev FrameMap := List (String × FrameData)

/-- Input schema `FrameUpload` (`app/schemas.py`): optional upload timestamp. -/
structure FrameUpload where
  device_id : String
  frame_b64 : String
  timestamp : Option Nat
deriving DecidableEq, Repr

/-- Python dict assignment `LATEST_FRAMES[k] = v`: replace the existing
binding for `k` in place, else append a new one. -/
def setSlot (m : FrameMap) (k : String) (v : FrameData) : FrameMap :=
  match m with
  | [] => [(k, v)]
  | (k', v') :: rest =>
      if k' = k then (k, v) :: rest else (k', v') :: setSlot rest k v

/-- `upload_frame` (`main.py` lines 88-103).  `b64decode` stands for
`base64.b64decode`; `none` models the exception, mapped to
`HTTPException(400, "Invalid base64 frame")` before any state change.
Returns the HTTP outcome (status code and body on error, `"ok"` on success)
and the `LATEST_FRAMES` map after the call. -/
def upload_frame (b64decode : String → Option (List Nat)) (now : Nat)
    (latest_frames : FrameMap) (payload : FrameUpload) :
    Except (Nat × String) String × FrameMap :=
  match b64decode payload.frame_b64 with
  | none => (Except.error (400, "Invalid base64 frame"), latest_frames)
  | some frame_bytes =>
      (Except.ok "ok",
       setSlot latest_frames payload.device_id
         ⟨frame_bytes, payload.timestamp.getD now⟩)

/-- Byte string of an ASCII literal. -/
def asciiBytes (s : String) : List Nat :=
  s.toList.map Char.toNat

/-- One polling tick of `mjpeg_generator` (`main.py` lines 106-125): if a
frame exists for `device_id`, yield one multipart chunk
`b"--frame" + b"\r\nContent-Type: image/jpeg\r\n\r\n" + frame + b"\r\n"`;
otherwise yield nothing this tick.  The generator is this tick repeated
forever with a 100 ms sleep; the tick reads the CURRENT map each time. -/
def mjpeg_tick (latest_frames : FrameMap) (device_id : String) :
    Option (List Nat) :=
  match dictGet latest_frames device_id with
  | none => none
  | some data =>
      some (asciiBytes "--frame"
        ++ asciiBytes "\r\nContent-Type: image/jpeg\r\n\r\n"
        ++ data.frame
        ++ asciiBytes "\r\n")

/-- The person entries of one batch that affect the identity `(d, p)`:
none when the batch is for another device, else the entries with this
`person_id`, in iteration order. -/
def relevantEntries (batch_device d p : String)
    (people : List PersonCumulativeIn) : List PersonCumulativeIn :=
  if batch_device = d then people.filter (fun e => decide (e.person_id = p))
  else []

/-- All person entries of a batch sequence affecting identity `(d, p)`, in
processing order, each paired with its batch's resolved timestamp. -/
def entryLog (parseIso : String → Option Nat)
    (bs : List (EmotionsBatchIn × Nat)) (d p : String) :
    List (PersonCumulativeIn × Nat) :=
  bs.flatMap (fun bn =>
    (relevantEntries bn.1.device_id d p bn.1.people).map
      (fun e => (e, resolveTimestamp parseIso bn.2 bn.1.timestamp)))

/-- The dominant-emotion rule as the spec words it, for comparison with the
code's `currentEmotionFor`: the emotion with the strictly greatest value
wins; ties resolve by the fixed priority order happy > sad > angry; a record
whose three values are all exactly zero overrides to neutral. -/
def dominantEmotionSpec (h s a : ℚ) : String :=
  if h = 0 ∧ s = 0 ∧ a = 0 then "neutral"
  else if h ≥ s ∧ h ≥ a then "happy"
  else if s ≥ a then "sad"
  else "angry"

/-! Upsert lemmas -/

theorem matchesKey_eq_true {d p : String} {r : PersonEmotion} :
    matchesKey d p r = true ↔ r.device_id = d ∧ r.person_id = p := by
  simp [matchesKey]

theorem countP_zero_iff_find?_none (q : PersonEmotion → Bool) (st : Store) :
    st.countP q = 0 ↔ st.find? q = none := by
  rw [List.countP_eq_zero, List.find?_eq_none]

theorem find?_updateFirst_of_excl (f : PersonEmotion → PersonEmotion)
    (q q' : PersonEmotion → Bool)
    (hpres : ∀ r, q' (f r) = q' r)
    (hexcl : ∀ r, q r = true → q' r = false) :
    ∀ st : Store, (updateFirst f q st).find? q' = st.find? q' := by
  intro st
  induction st with
  | nil => rfl
  | cons r rs ih =>
    unfold updateFirst
    by_cases hq : q r = true
    · have h2 : q' r = false := hexcl r hq
      have h1 : q' (f r) = false := by rw [hpres]; exact h2
      simp [hq, List.find?_cons, h1, h2]
    · have hq' : q r = false := by simpa using hq
      simp only [hq', Bool.false_eq_true, if_false, List.find?_cons]
      cases hq2 : q' r
      · simpa using ih
      · rfl

theorem find?_updateFirst_self (f : PersonEmotion → PersonEmotion)
    (q : PersonEmotion → Bool) (hpres : ∀ r, q (f r) = q r) :
    ∀ (st : Store) (r₀ : PersonEmotion), st.find? q = some r₀ →
      (updateFirst f q st).find? q = some (f r₀) := by
  intro st
  induction st with
  | nil => intro r₀ h; cases h
  | cons r rs ih =>
    intro r₀ h
    by_cases hq : q r = true
    · have hr : (r :: rs).find? q = some r := by simp [List.find?_cons, hq]
      rw [hr] at h
      cases h
      have h1 : q (f r) = true := by rw [hpres]; exact hq
      unfold updateFirst
      simp [hq, List.find?_cons, h1]
    · have hq' : q r = false := by simpa using hq
      have hr : (r :: rs).find? q = rs.find? q := by simp [List.find?_cons, hq']
      rw [hr] at h
      unfold updateFirst
      simp only [hq', if_false, Bool.false_eq_true, List.find?_cons]
      exact ih r₀ h

theorem countP_updateFirst (f : PersonEmotion → PersonEmotion)
    (q q' : PersonEmotion → Bool) (hpres : ∀ r, q' (f r) = q' r) :
    ∀ st : Store, (updateFirst f q st).countP q' = st.countP q' := by
  intro st
  induction st with
  | nil => rfl
  | cons r rs ih =>
    unfold updateFirst
    by_cases hq : q r = true
    · simp [hq, List.countP_cons, hpres]
    · simp [hq, List.countP_cons, ih]

theorem find?_applyPerson (device_id : String) (t : Nat) (st : Store)
    (e : PersonCumulativeIn) (d' p' : String) :
    (applyPerson device_id t st e).find? (matchesKey d' p') =
      if device_id = d' ∧ e.person_id = p' then
        some ⟨d', p', cumGet e.cumulative "happy", cumGet e.cumulative "sad",
              cumGet e.cumulative "angry", t⟩
      else st.find? (matchesKey d' p') := by
  simp only [applyPerson]
  cases hfind : st.find? (matchesKey device_id e.person_id) with
  | none =>
    by_cases hc : device_id = d' ∧ e.person_id = p'
    · rw [if_pos hc]
      obtain ⟨hd, hp⟩ := hc
      subst hd
      subst hp
      rw [List.find?_append, hfind]
      simp [List.find?_cons, matchesKey]
    · rw [if_neg hc]
      rw [List.find?_append]
      have hnew : matchesKey d' p'
          ⟨device_id, e.person_id, cumGet e.cumulative "happy",
           cumGet e.cumulative "sad", cumGet e.cumulative "angry", t⟩ = false := by
        simpa [matchesKey] using hc
      simp [List.find?_cons, hnew]
  | some r =>
    by_cases hc : device_id = d' ∧ e.person_id = p'
    · rw [if_pos hc]
      obtain ⟨hd, hp⟩ := hc
      subst hd
      subst hp
      rw [find?_updateFirst_self _ _ (fun r' => by simp [matchesKey]) st r hfind]
      have hr := List.find?_some hfind
      obtain ⟨h1, h2⟩ := matchesKey_eq_true.mp hr
      cases r
      simp only [PersonEmotion.mk.injEq] at h1 h2 ⊢
      simp_all
    · rw [if_neg hc]
      apply find?_updateFirst_of_excl
      · intro r'
        simp [matchesKey]
      · intro r' hq
        obtain ⟨h1, h2⟩ := matchesKey_eq_true.mp hq
        simp only [matchesKey, h1, h2, decide_eq_false_iff_not]
        exact hc

theorem countP_applyPerson (device_id : String) (t : Nat) (st : Store)
    (e : PersonCumulativeIn) (d' p' : String) :
    (applyPerson device_id t st e).countP (matchesKey d' p') =
      if device_id = d' ∧ e.person_id = p' ∧
          st.countP (matchesKey d' p') = 0 then 1
      else st.countP (matchesKey d' p') := by
  simp only [applyPerson]
  cases hfind : st.find? (matchesKey device_id e.person_id) with
  | none =>
    have h0 : st.countP (matchesKey device_id e.person_id) = 0 :=
      (countP_zero_iff_find?_none _ _).mpr hfind
    rw [List.countP_append]
    by_cases hc : device_id = d' ∧ e.person_id = p'
    · obtain ⟨hd, hp⟩ := hc
      subst hd
      subst hp
      rw [if_pos ⟨rfl, rfl, h0⟩, h0]
      simp [List.countP_cons, matchesKey]
    · have hnew : matchesKey d' p'
          ⟨device_id, e.person_id, cumGet e.cumulative "happy",
           cumGet e.cumulative "sad", cumGet e.cumulative "angry", t⟩ = false := by
        simpa [matchesKey] using hc
      rw [if_neg (by tauto)]
      simp [List.countP_cons, hnew]
  | some r =>
    rw [countP_updateFirst _ _ _ (fun r' => by simp [matchesKey])]
    have hpos : st.countP (matchesKey device_id e.person_id) ≠ 0 := by
      intro h0
      rw [(countP_zero_iff_find?_none _ _).mp h0] at hfind
      cases hfind
    by_cases hc : device_id = d' ∧ e.person_id = p'
    · obtain ⟨hd, hp⟩ := hc
      subst hd
      subst hp
      rw [if_neg (by tauto)]
    · rw [if_neg (by tauto)]

theorem relevantEntries_nil (bd d p : String) :
    relevantEntries bd d p [] = [] := by
  unfold relevantEntries
  simp

theorem relevantEntries_cons (bd d p : String) (e : PersonCumulativeIn)
    (people : List PersonCumulativeIn) :
    relevantEntries bd d p (e :: people) =
      if bd = d ∧ e.person_id = p then e :: relevantEntries bd d p people
      else relevantEntries bd d p people := by
  unfold relevantEntries
  by_cases hd : bd = d
  · by_cases hp : e.person_id = p
    · simp [hd, hp, List.filter_cons]
    · simp [hd, hp, List.filter_cons]
  · simp [hd]

theorem getLast?_cons_eq {α : Type} (a : α) (l : List α) :
    (a :: l).getLast? = some (l.getLast?.getD a) := by
  induction l generalizing a with
  | nil => rfl
  | cons b l ih => simp [List.getLast?_cons_cons, ih]

/-- The row a summary lookup would see for `(d', p')` after the upsert loop
of one batch: the last relevant entry of the batch wins wholesale, with the
batch's single resolved timestamp; identities the batch does not mention are
untouched. -/
theorem find?_applyBatchPending (device_id : String) (t : Nat)
    (d' p' : String) :
    ∀ (people : List PersonCumulativeIn) (st : Store),
      (applyBatchPending device_id t st people).find? (matchesKey d' p') =
        match (relevantEntries device_id d' p' people).getLast? with
        | some e =>
            some ⟨d', p', cumGet e.cumulative "happy",
                  cumGet e.cumulative "sad", cumGet e.cumulative "angry", t⟩
        | none => st.find? (matchesKey d' p') := by
  intro people
  induction people with
  | nil =>
    intro st
    simp [applyBatchPending, relevantEntries_nil]
  | cons e people ih =>
    intro st
    have hstep : applyBatchPending device_id t st (e :: people) =
        applyBatchPending device_id t (applyPerson device_id t st e) people :=
      rfl
    rw [hstep, ih, relevantEntries_cons]
    by_cases hc : device_id = d' ∧ e.person_id = p'
    · rw [if_pos hc]
      cases hrel : relevantEntries device_id d' p' people with
      | nil => simp [find?_applyPerson, hc]
      | cons r rs => simp [getLast?_cons_eq]
    · rw [if_neg hc]
      cases hrel : relevantEntries device_id d' p' people with
      | nil => simp [find?_applyPerson, hc]
      | cons r rs => rfl

/-- Row multiplicity for one identity after the upsert loop of one batch:
a batch mentioning the identity creates the row if absent and never
duplicates it; other identities keep their multiplicity. -/
theorem countP_applyBatchPending (device_id : String) (t : Nat)
    (d' p' : String) :
    ∀ (people : List PersonCumulativeIn) (st : Store),
      (applyBatchPending device_id t st people).countP (matchesKey d' p') =
        if relevantEntries device_id d' p' people = [] then
          st.countP (matchesKey d' p')
        else if st.countP (matchesKey d' p') = 0 then 1
        else st.countP (matchesKey d' p') := by
  intro people
  induction people with
  | nil =>
    intro st
    simp [applyBatchPending, relevantEntries_nil]
  | cons e people ih =>
    intro st
    have hstep : applyBatchPending device_id t st (e :: people) =
        applyBatchPending device_id t (applyPerson device_id t st e) people :=
      rfl
    rw [hstep, ih, countP_applyPerson, relevantEntries_cons]
    by_cases hd : device_id = d' <;>
      by_cases hp : e.person_id = p' <;>
      by_cases h0 : st.countP (matchesKey d' p') = 0 <;>
      by_cases hrel : relevantEntries device_id d' p' people = [] <;>
      simp [hd, hp, h0, hrel]

theorem applyBatches_general (parseIso : String → Option Nat) (d p : String) :
    ∀ (bs : List (EmotionsBatchIn × Nat)) (st : Store),
      ((bs.foldl (fun st bn => (applyBatch parseIso bn.2 st bn.1).1) st).find?
          (matchesKey d p) =
        match (entryLog parseIso bs d p).getLast? with
        | some et =>
            some ⟨d, p, cumGet et.1.cumulative "happy",
                  cumGet et.1.cumulative "sad",
                  cumGet et.1.cumulative "angry", et.2⟩
        | none => st.find? (matchesKey d p)) ∧
      ((bs.foldl (fun st bn => (applyBatch parseIso bn.2 st bn.1).1) st).countP
          (matchesKey d p) =
        if entryLog parseIso bs d p = [] then st.countP (matchesKey d p)
        else if st.countP (matchesKey d p) = 0 then 1
        else st.countP (matchesKey d p)) := by
  intro bs
  induction bs with
  | nil =>
    intro st
    constructor <;> simp [entryLog]
  | cons bn bs ih =>
    intro st
    have hfold : (bn :: bs).foldl
        (fun st bn => (applyBatch parseIso bn.2 st bn.1).1) st =
        bs.foldl (fun st bn => (applyBatch parseIso bn.2 st bn.1).1)
          (applyBatchPending bn.1.device_id
            (resolveTimestamp parseIso bn.2 bn.1.timestamp) st bn.1.people) :=
      rfl
    have hlog : entryLog parseIso (bn :: bs) d p =
        (relevantEntries bn.1.device_id d p bn.1.people).map
          (fun e => (e, resolveTimestamp parseIso bn.2 bn.1.timestamp)) ++
        entryLog parseIso bs d p := by
      simp [entryLog]
    obtain ⟨ih1, ih2⟩ := ih (applyBatchPending bn.1.device_id
      (resolveTimestamp parseIso bn.2 bn.1.timestamp) st bn.1.people)
    constructor
    · rw [hfold, ih1, hlog, find?_applyBatchPending]
      cases hbs : (entryLog parseIso bs d p).getLast? with
      | some et => simp [List.getLast?_append, hbs]
      | none =>
        cases hrel :
            (relevantEntries bn.1.device_id d p bn.1.people).getLast? with
        | some e => simp [List.getLast?_append, hbs, hrel]
        | none => simp [List.getLast?_append, hbs, hrel]
    · rw [hfold, ih2, hlog, countP_applyBatchPending]
      by_cases hrel : relevantEntries bn.1.device_id d p bn.1.people = [] <;>
        by_cases hbs : entryLog parseIso bs d p = [] <;>
        by_cases h0 : st.countP (matchesKey d p) = 0 <;>
        simp [hrel, hbs, h0]

/-- C1: after any sequence of ingested batches starting from the empty
table, an identity `(device_id, person_id)` has exactly one stored row
exactly when some processed batch entry mentioned it, and that row's
`time_happy`, `time_sad`, `time_angry` and `last_seen` come wholesale from
the most recently processed entry for that identity (full overwrite, not a
sum).  `entryLog` flattens the batches in processing order, so a
`person_id` duplicated within one batch raises no error and its later
entry in iteration order wins. -/
theorem upsert_last_write_wins (parseIso : String → Option Nat)
    (bs : List (EmotionsBatchIn × Nat)) (d p : String) :
    match (entryLog parseIso bs d p).getLast? with
    | some et =>
        (applyBatches parseIso bs).countP (matchesKey d p) = 1 ∧
        (applyBatches parseIso bs).find? (matchesKey d p) =
          some ⟨d, p, cumGet et.1.cumulative "happy",
                cumGet et.1.cumulative "sad",
                cumGet et.1.cumulative "angry", et.2⟩
    | none =>
        (applyBatches parseIso bs).countP (matchesKey d p) = 0 ∧
        (applyBatches parseIso bs).find? (matchesKey d p) = none := by
  obtain ⟨h1, h2⟩ := applyBatches_general parseIso d p bs []
  have happ : applyBatches parseIso bs =
      bs.foldl (fun st bn => (applyBatch parseIso bn.2 st bn.1).1) [] := rfl
  cases hlog : (entryLog parseIso bs d p).getLast? with
  | some et =>
    have hne : entryLog parseIso bs d p ≠ [] := by
      intro h
      rw [h] at hlog
      cases hlog
    rw [hlog] at h1
    refine ⟨?_, by rw [happ, h1]⟩
    rw [happ, h2]
    simp [hne]
  | none =>
    have hnil : entryLog parseIso bs d p = [] :=
      List.getLast?_eq_none_iff.mp hlog
    rw [hlog] at h1
    refine ⟨?_, by rw [happ, h1]; rfl⟩
    rw [happ, h2]
    simp [hnil]

theorem upsert_last_write_wins_witness :
    (applyBatches (fun _ => some 5)
      [(⟨"jetson_1", "t1", [⟨"1", [("happy", 1)]⟩]⟩, 9),
       (⟨"jetson_1", "t2", [⟨"1", [("happy", 2), ("sad", 3)]⟩]⟩, 10)]).countP
        (matchesKey "jetson_1" "1") = 1 ∧
    (applyBatches (fun _ => some 5)
      [(⟨"jetson_1", "t1", [⟨"1", [("happy", 1)]⟩]⟩, 9),
       (⟨"jetson_1", "t2", [⟨"1", [("happy", 2), ("sad", 3)]⟩]⟩, 10)]).find?
        (matchesKey "jetson_1" "1") =
      some ⟨"jetson_1", "1", 2, 3, 0, 5⟩ :=
  upsert_last_write_wins (fun _ => some 5)
    [(⟨"jetson_1", "t1", [⟨"1", [("happy", 1)]⟩]⟩, 9),
     (⟨"jetson_1", "t2", [⟨"1", [("happy", 2), ("sad", 3)]⟩]⟩, 10)]
    "jetson_1" "1"

/-- C5: a batch resolves exactly one timestamp — `batch.timestamp` parsed
after replacing the literal `Z` suffix by the `+00:00` UTC offset, falling
back to the current wall clock when parsing fails — the parse failure is
never surfaced, every person entry of the batch gets `last_seen` set to
that single resolved timestamp, and `updated_count` is the number of
people entries. -/
theorem batch_timestamp_resolution (parseIso : String → Option Nat)
    (now : Nat) (st : Store) (batch : EmotionsBatchIn) :
    (applyBatch parseIso now st batch).2 = batch.people.length ∧
    (∀ t, parseIso (batch.timestamp.replace "Z" "+00:00") = some t →
      resolveTimestamp parseIso now batch.timestamp = t) ∧
    (parseIso (batch.timestamp.replace "Z" "+00:00") = none →
      resolveTimestamp parseIso now batch.timestamp = now) ∧
    (∀ e ∈ batch.people, ∃ r,
      ((applyBatch parseIso now st batch).1).find?
          (matchesKey batch.device_id e.person_id) = some r ∧
      r.last_seen = resolveTimestamp parseIso now batch.timestamp) := by
  refine ⟨rfl, ?_, ?_, ?_⟩
  · intro t h
    simp [resolveTimestamp, h]
  · intro h
    simp [resolveTimestamp, h]
  · intro e he
    have hpend : (applyBatch parseIso now st batch).1 =
        applyBatchPending batch.device_id
          (resolveTimestamp parseIso now batch.timestamp) st batch.people :=
      rfl
    rw [hpend, find?_applyBatchPending]
    have hne : relevantEntries batch.device_id batch.device_id e.person_id
        batch.people ≠ [] := by
      unfold relevantEntries
      rw [if_pos rfl]
      intro hnil
      have hmem : e ∈ batch.people.filter
          (fun e' => decide (e'.person_id = e.person_id)) :=
        List.mem_filter.mpr ⟨he, by simp⟩
      rw [hnil] at hmem
      cases hmem
    cases hrel : (relevantEntries batch.device_id batch.device_id
        e.person_id batch.people).getLast? with
    | none => exact absurd (List.getLast?_eq_none_iff.mp hrel) hne
    | some e' => exact ⟨_, rfl, rfl⟩

theorem batch_timestamp_resolution_witness :
    (applyBatch (fun _ => none) 42 []
      ⟨"jetson_1", "not-a-date", [⟨"1", [("happy", 3)]⟩]⟩).2 = 1 ∧
    resolveTimestamp (fun _ => none) 42 "not-a-date" = 42 ∧
    (∃ r, ((applyBatch (fun _ => none) 42 []
        ⟨"jetson_1", "not-a-date", [⟨"1", [("happy", 3)]⟩]⟩).1).find?
          (matchesKey "jetson_1" "1") = some r ∧ r.last_seen = 42) := by
  have h := batch_timestamp_resolution (fun _ => none) 42 []
    ⟨"jetson_1", "not-a-date", [⟨"1", [("happy", 3)]⟩]⟩
  exact ⟨h.1, h.2.2.1 rfl, h.2.2.2 ⟨"1", [("happy", 3)]⟩ (by simp)⟩

/-- C7: a key among happy/sad/angry missing from the `cumulative` mapping
is read as `0.0`, and a key outside that set has no effect on the upsert. -/
theorem cumulative_defaults_and_unknown_keys (d p : String) (t : Nat)
    (st : Store) (cum : List (String × ℚ)) (k : String) (v : ℚ) :
    (dictGet cum "happy" = none → cumGet cum "happy" = 0) ∧
    (dictGet cum "sad" = none → cumGet cum "sad" = 0) ∧
    (dictGet cum "angry" = none → cumGet cum "angry" = 0) ∧
    (¬(k = "happy" ∨ k = "sad" ∨ k = "angry") →
      applyPerson d t st ⟨p, (k, v) :: cum⟩ = applyPerson d t st ⟨p, cum⟩) := by
  refine ⟨fun h => by simp [cumGet, h], fun h => by simp [cumGet, h],
          fun h => by simp [cumGet, h], ?_⟩
  intro hk
  push_neg at hk
  obtain ⟨hk1, hk2, hk3⟩ := hk
  simp only [applyPerson, cumGet, dictGet, if_neg hk1, if_neg hk2, if_neg hk3]

theorem cumulative_defaults_and_unknown_keys_witness :
    dictGet ([("sad", (2 : ℚ))]) "happy" = none ∧
    cumGet [("sad", (2 : ℚ))] "happy" = 0 ∧
    ¬(("surprised" : String) = "happy" ∨ ("surprised" : String) = "sad" ∨
      ("surprised" : String) = "angry") ∧
    applyPerson "jetson_1" 7 [] ⟨"1", [("surprised", 9), ("sad", 2)]⟩ =
      applyPerson "jetson_1" 7 [] ⟨"1", [("sad", 2)]⟩ := by
  have h := cumulative_defaults_and_unknown_keys "jetson_1" "1" 7 []
    [("sad", (2 : ℚ))] "surprised" 9
  exact ⟨by decide, h.1 (by decide), by decide, h.2.2.2 (by decide)⟩

/-- C9: the whole upsert loop stages its changes in the session and a single
`session.commit()` after the loop makes them durable; if that one commit
raises, the durable store is exactly the pre-call store — no person entry of
the batch is persisted — and on success the whole batch is persisted at
once. -/
theorem single_commit_atomicity (parseIso : String → Option Nat) (now : Nat)
    (st : Store) (batch : EmotionsBatchIn) :
    ingest_emotions_batch parseIso false now st batch =
      (Except.error "StorageError", st) ∧
    (∀ d p, (ingest_emotions_batch parseIso false now st batch).2.countP
        (matchesKey d p) = st.countP (matchesKey d p)) ∧
    ingest_emotions_batch parseIso true now st batch =
      (Except.ok batch.people.length,
       applyBatchPending batch.device_id
         (resolveTimestamp parseIso now batch.timestamp) st batch.people) := by
  exact ⟨rfl, fun d p => rfl, rfl⟩

/-- C10: neither the ingest nor the summary validates non-negativity: any
rational cumulative values, negative ones included, are stored verbatim
without error, the neutral override fires only when all three stored values
are exactly zero, and a record whose three times are all negative derives
the priority maximum (all equal to `-1` derives `"happy"`), never
`"neutral"`. -/
theorem negative_values_stored_verbatim (h s a : ℚ) (d p : String)
    (t : Nat) :
    (h < 0 → s < 0 → a < 0 → currentEmotionFor h s a ≠ "neutral") ∧
    currentEmotionFor (-1) (-1) (-1) = "happy" ∧
    applyPerson d t [] ⟨p, [("happy", h), ("sad", s), ("angry", a)]⟩ =
      [⟨d, p, h, s, a, t⟩] ∧
    (¬(h = 0 ∧ s = 0 ∧ a = 0) →
      currentEmotionFor h s a = pyMaxEmotion h s a) := by
  refine ⟨?_, by norm_num [currentEmotionFor, pyMaxEmotion], ?_, ?_⟩
  · intro hh hs ha
    have hz : ¬(h = 0 ∧ s = 0 ∧ a = 0) := by
      rintro ⟨rfl, -, -⟩
      exact absurd hh (by norm_num)
    simp only [currentEmotionFor, pyMaxEmotion, if_neg hz]
    by_cases h1 : s > h <;> by_cases h2 : a > s <;> by_cases h3 : a > h <;>
      simp [h1, h2, h3]
  · simp [applyPerson, cumGet, dictGet, List.find?_nil]
  · intro hz
    simp [currentEmotionFor, if_neg hz]

theorem negative_values_stored_verbatim_witness :
    ((-1 : ℚ) < 0) ∧
    currentEmotionFor (-1) (-1) (-1) ≠ "neutral" ∧
    currentEmotionFor (-1) (-1) (-1) = "happy" ∧
    applyPerson "jetson_1" 0 []
        ⟨"1", [("happy", -1), ("sad", -1), ("angry", -1)]⟩ =
      [⟨"jetson_1", "1", -1, -1, -1, 0⟩] := by
  have h := negative_values_stored_verbatim (-1) (-1) (-1) "jetson_1" "1" 0
  exact ⟨by norm_num,
         h.1 (by norm_num) (by norm_num) (by norm_num), h.2.1, h.2.2.1⟩

/-! Dashboard lemmas -/

theorem pyMaxEmotion_eq (h s a : ℚ) :
    pyMaxEmotion h s a =
      if s > h then (if a > s then "angry" else "sad")
      else (if a > h then "angry" else "happy") := by
  unfold pyMaxEmotion
  by_cases h1 : s > h <;> by_cases h2 : a > s <;> by_cases h3 : a > h <;>
    simp [h1, h2, h3]

theorem summary_foldl (isoformat : Nat → String) :
    ∀ (l : List PersonEmotion) (a b c : ℚ) (ps : List PersonStateOut),
      l.foldl (fun (acc : ℚ × ℚ × ℚ × List PersonStateOut) record =>
        (acc.1 + record.time_happy, acc.2.1 + record.time_sad,
         acc.2.2.1 + record.time_angry,
         acc.2.2.2 ++ [personStateOf isoformat record])) (a, b, c, ps) =
      (a + (l.map (fun r => r.time_happy)).sum,
       b + (l.map (fun r => r.time_sad)).sum,
       c + (l.map (fun r => r.time_angry)).sum,
       ps ++ l.map (personStateOf isoformat)) := by
  intro l
  induction l with
  | nil =>
    intro a b c ps
    simp
  | cons r l ih =>
    intro a b c ps
    simp [List.foldl_cons, ih, add_assoc]

/-- Closed form of `get_dashboard_summary`: filter by device, sum each time
field, render one `PersonStateOut` per matched row in storage order. -/
theorem get_dashboard_summary_eq (isoformat : Nat → String) (now : Nat)
    (store : Store) (device_id : String) :
    get_dashboard_summary isoformat now store device_id =
      { device_id := device_id
        device_name := "Entrance Camera"
        updated_at := isoformat now ++ "Z"
        emotion_totals :=
          ⟨((store.filter (fun r => r.device_id == device_id)).map
              (fun r => r.time_happy)).sum,
           ((store.filter (fun r => r.device_id == device_id)).map
              (fun r => r.time_sad)).sum,
           ((store.filter (fun r => r.device_id == device_id)).map
              (fun r => r.time_angry)).sum, 0⟩
        current_people :=
          (store.filter (fun r => r.device_id == device_id)).map
            (personStateOf isoformat) } := by
  simp [get_dashboard_summary, summary_foldl]

/-- C2: `current_emotion` is the emotion with the strictly greatest time;
ties resolve by the fixed priority happy > sad > angry (the first maximum of
the scan order happy, sad, angry); all three exactly zero overrides to
neutral, so all-5.0 derives happy and all-0.0 derives neutral. -/
theorem dominant_emotion_rule :
    (∀ h s a : ℚ, currentEmotionFor h s a = dominantEmotionSpec h s a) ∧
    currentEmotionFor 5 5 5 = "happy" ∧
    currentEmotionFor 0 0 0 = "neutral" := by
  refine ⟨?_, by norm_num [currentEmotionFor, pyMaxEmotion],
          by norm_num [currentEmotionFor]⟩
  intro h s a
  unfold currentEmotionFor dominantEmotionSpec
  rw [pyMaxEmotion_eq]
  by_cases hz : h = 0 ∧ s = 0 ∧ a = 0
  · simp [hz]
  · rw [if_neg hz, if_neg hz]
    by_cases h1 : s > h <;> by_cases h2 : a > s <;> by_cases h3 : a > h <;>
      [skip; skip; skip; skip; skip; skip; skip; skip] <;>
      split_ifs with g1 g2 <;>
      first
        | rfl
        | (exfalso; push_neg at *; first | linarith | linarith [g1 (by linarith)])

/-- C3: the summary's `emotion_totals` are the arithmetic sums of the time
fields over the rows matching the queried `device_id`, `neutral` is always
zero, `current_people` has exactly one `PersonState` per matched row, and a
device with no rows yields empty `current_people` and all-zero totals,
never an error. -/
theorem summarize_aggregation (isoformat : Nat → String) (now : Nat)
    (store : Store) (device_id : String) :
    (get_dashboard_summary isoformat now store device_id).emotion_totals =
      ⟨((store.filter (fun r => r.device_id == device_id)).map
          (fun r => r.time_happy)).sum,
       ((store.filter (fun r => r.device_id == device_id)).map
          (fun r => r.time_sad)).sum,
       ((store.filter (fun r => r.device_id == device_id)).map
          (fun r => r.time_angry)).sum, 0⟩ ∧
    (get_dashboard_summary isoformat now store device_id).current_people =
      (store.filter (fun r => r.device_id == device_id)).map
        (personStateOf isoformat) ∧
    (get_dashboard_summary isoformat now store
        device_id).current_people.length =
      (store.filter (fun r => r.device_id == device_id)).length ∧
    (store.filter (fun r => r.device_id == device_id) = [] →
      (get_dashboard_summary isoformat now store device_id).current_people =
        [] ∧
      (get_dashboard_summary isoformat now store device_id).emotion_totals =
        ⟨0, 0, 0, 0⟩) := by
  rw [get_dashboard_summary_eq]
  refine ⟨rfl, rfl, by simp, ?_⟩
  intro hnil
  rw [hnil]
  exact ⟨rfl, rfl⟩

theorem summarize_aggregation_witness :
    ([(⟨"jetson_1", "1", 3, 0, 0, 11⟩ : PersonEmotion),
      ⟨"jetson_1", "2", 0, 4, 0, 12⟩].filter
        (fun r => r.device_id == "other") = []) ∧
    (get_dashboard_summary (fun _ => "T") 5
        [⟨"jetson_1", "1", 3, 0, 0, 11⟩, ⟨"jetson_1", "2", 0, 4, 0, 12⟩]
        "jetson_1").emotion_totals = ⟨3, 4, 0, 0⟩ ∧
    (get_dashboard_summary (fun _ => "T") 5
        [⟨"jetson_1", "1", 3, 0, 0, 11⟩, ⟨"jetson_1", "2", 0, 4, 0, 12⟩]
        "other").current_people = [] := by
  have h := summarize_aggregation (fun _ => "T") 5
    [⟨"jetson_1", "1", 3, 0, 0, 11⟩, ⟨"jetson_1", "2", 0, 4, 0, 12⟩] "other"
  refine ⟨by decide, ?_, (h.2.2.2 (by decide)).1⟩
  have h2 := summarize_aggregation (fun _ => "T") 5
    [⟨"jetson_1", "1", 3, 0, 0, 11⟩, ⟨"jetson_1", "2", 0, 4, 0, 12⟩]
    "jetson_1"
  rw [h2.1]
  norm_num [List.filter_cons, List.filter_nil]

/-- C8: every timestamp string in the summary output is an externally
rendered ISO-8601 `isoformat` value with a trailing `"Z"` appended:
`updated_at` renders the generation time and each person's `last_seen`
renders that row's stored timestamp. -/
theorem timestamps_rendered_with_trailing_Z (isoformat : Nat → String)
    (now : Nat) (store : Store) (device_id : String) :
    (get_dashboard_summary isoformat now store device_id).updated_at =
      isoformat now ++ "Z" ∧
    (∀ ps ∈ (get_dashboard_summary isoformat now store
        device_id).current_people,
      ∃ r : PersonEmotion, ps.last_seen = isoformat r.last_seen ++ "Z") := by
  refine ⟨rfl, ?_⟩
  intro ps hps
  rw [get_dashboard_summary_eq] at hps
  simp only [List.mem_map] at hps
  obtain ⟨r, -, rfl⟩ := hps
  exact ⟨r, rfl⟩

theorem timestamps_rendered_with_trailing_Z_witness :
    (get_dashboard_summary (fun n => toString n) 5
        [⟨"jetson_1", "1", 3, 0, 0, 11⟩] "jetson_1").updated_at = "5Z" ∧
    (personStateOf (fun n => toString n) ⟨"jetson_1", "1", 3, 0, 0, 11⟩ ∈
      (get_dashboard_summary (fun n => toString n) 5
        [⟨"jetson_1", "1", 3, 0, 0, 11⟩] "jetson_1").current_people) ∧
    (∃ r : PersonEmotion,
      (personStateOf (fun n => toString n)
          ⟨"jetson_1", "1", 3, 0, 0, 11⟩).last_seen =
        toString r.last_seen ++ "Z") := by
  have h := timestamps_rendered_with_trailing_Z (fun n => toString n) 5
    [⟨"jetson_1", "1", 3, 0, 0, 11⟩] "jetson_1"
  have hmem : personStateOf (fun n => toString n)
      ⟨"jetson_1", "1", 3, 0, 0, 11⟩ ∈
      (get_dashboard_summary (fun n => toString n) 5
        [⟨"jetson_1", "1", 3, 0, 0, 11⟩] "jetson_1").current_people := by
    rw [get_dashboard_summary_eq]
    simp
  exact ⟨h.1, hmem, h.2 _ hmem⟩

/-! Frame relay lemmas -/

theorem dictGet_setSlot_self (m : FrameMap) (k : String) (v : FrameData) :
    dictGet (setSlot m k v) k = some v := by
  induction m with
  | nil => simp [setSlot, dictGet]
  | cons kv rest ih =>
    obtain ⟨k', v'⟩ := kv
    by_cases hk : k' = k
    · simp [setSlot, dictGet, hk]
    · simp [setSlot, dictGet, hk, ih]

theorem asciiBytes_append (s t : String) :
    asciiBytes (s ++ t) = asciiBytes s ++ asciiBytes t := by
  simp [asciiBytes, String.toList, String.data_append]

/-- C4: a frame publish whose payload does not base64-decode fails with the
client error `400 Invalid base64 frame` and leaves the whole latest-frame
map — in particular any stale frame for that device — unchanged; a payload
that decodes replaces the device's slot wholesale with the decoded bytes
and the upload timestamp (defaulting to the current time). -/
theorem upload_frame_error_handling (b64decode : String → Option (List Nat))
    (now : Nat) (latest_frames : FrameMap) (payload : FrameUpload) :
    (b64decode payload.frame_b64 = none →
      upload_frame b64decode now latest_frames payload =
        (Except.error (400, "Invalid base64 frame"), latest_frames)) ∧
    (∀ frame_bytes, b64decode payload.frame_b64 = some frame_bytes →
      (upload_frame b64decode now latest_frames payload).1 =
        Except.ok "ok" ∧
      dictGet (upload_frame b64decode now latest_frames payload).2
          payload.device_id =
        some ⟨frame_bytes, payload.timestamp.getD now⟩) := by
  constructor
  · intro h
    simp [upload_frame, h]
  · intro frame_bytes h
    refine ⟨by simp [upload_frame, h], ?_⟩
    simp only [upload_frame, h]
    exact dictGet_setSlot_self latest_frames payload.device_id _

theorem upload_frame_error_handling_witness :
    ((fun s => if s = "/9j/" then some [255, 216] else none) "!!!" =
      (none : Option (List Nat))) ∧
    upload_frame (fun s => if s = "/9j/" then some [255, 216] else none) 7
        [("jetson_1", ⟨[9], 0⟩)] ⟨"jetson_1", "!!!", none⟩ =
      (Except.error (400, "Invalid base64 frame"),
       [("jetson_1", ⟨[9], 0⟩)]) ∧
    dictGet (upload_frame
        (fun s => if s = "/9j/" then some [255, 216] else none) 7
        [("jetson_1", ⟨[9], 0⟩)] ⟨"jetson_1", "/9j/", some 3⟩).2
        "jetson_1" = some ⟨[255, 216], 3⟩ := by
  have h1 := upload_frame_error_handling
    (fun s => if s = "/9j/" then some [255, 216] else none) 7
    [("jetson_1", ⟨[9], 0⟩)] ⟨"jetson_1", "!!!", none⟩
  have h2 := upload_frame_error_handling
    (fun s => if s = "/9j/" then some [255, 216] else none) 7
    [("jetson_1", ⟨[9], 0⟩)] ⟨"jetson_1", "/9j/", some 3⟩
  exact ⟨by decide, h1.1 (by decide), (h2.2 [255, 216] (by decide)).2⟩

/-- C6: on a poll tick of the stream generator for `device_id`, if the
latest-frame map currently holds a frame for that device — whether or not
it changed since any earlier tick — exactly one chunk is emitted, laid out
as boundary marker, `Content-Type: image/jpeg` header line, blank line, the
current frame's raw bytes, and a trailing line break; if no frame exists
yet, the tick emits nothing. -/
theorem mjpeg_tick_chunk_layout (latest_frames : FrameMap)
    (device_id : String) :
    (∀ data, dictGet latest_frames device_id = some data →
      mjpeg_tick latest_frames device_id =
        some (asciiBytes "--frame" ++ asciiBytes "\r\n" ++
          asciiBytes "Content-Type: image/jpeg" ++ asciiBytes "\r\n" ++
          asciiBytes "\r\n" ++ data.frame ++ asciiBytes "\r\n")) ∧
    (dictGet latest_frames device_id = none →
      mjpeg_tick latest_frames device_id = none) := by
  constructor
  · intro data h
    simp only [mjpeg_tick, h]
    rw [show asciiBytes "\r\nContent-Type: image/jpeg\r\n\r\n" =
        asciiBytes "\r\n" ++ asciiBytes "Content-Type: image/jpeg" ++
          asciiBytes "\r\n" ++ asciiBytes "\r\n" by
      rw [← asciiBytes_append, ← asciiBytes_append, ← asciiBytes_append]
      congr 1]
    simp [List.append_assoc]
  · intro h
    simp [mjpeg_tick, h]

theorem mjpeg_tick_chunk_layout_witness :
    (dictGet [("jetson_1", (⟨[255, 216], 0⟩ : FrameData))] "jetson_1" =
      some ⟨[255, 216], 0⟩) ∧
    mjpeg_tick [("jetson_1", ⟨[255, 216], 0⟩)] "jetson_1" =
      some (asciiBytes "--frame" ++ asciiBytes "\r\n" ++
        asciiBytes "Content-Type: image/jpeg" ++ asciiBytes "\r\n" ++
        asciiBytes "\r\n" ++ [255, 216] ++ asciiBytes "\r\n") ∧
    mjpeg_tick [] "jetson_1" = none := by
  have h := mjpeg_tick_chunk_layout [("jetson_1", ⟨[255, 216], 0⟩)]
    "jetson_1"
  have h0 := mjpeg_tick_chunk_layout [] "jetson_1"
  exact ⟨by decide, h.1 ⟨[255, 216], 0⟩ (by decide), h0.2 (by decide)⟩

example :
    applyBatch (fun _ => some 5) 9 []
      ⟨"jetson_1", "2025-11-14T12:34:56Z",
        [⟨"1", [("happy", 2), ("sad", 1)]⟩, ⟨"1", [("angry", 7)]⟩]⟩ =
    ([⟨"jetson_1", "1", 0, 0, 7, 5⟩], 2) := by decide

example :
    applyBatch (fun _ => none) 9 [⟨"jetson_1", "1", 1, 1, 1, 0⟩]
      ⟨"jetson_1", "not-a-date", [⟨"1", [("happy", 3)]⟩]⟩ =
    ([⟨"jetson_1", "1", 3, 0, 0, 9⟩], 1) := by decide

end EmotionBackend
